import Mathlib

/-!
Verification development for the F1RaceTelemetry ingestion pipeline.

The Python sources (`database.py`, `models.py`, `data_ingestion.py`,
`main.py`, `config.py`) are shallowly embedded below:

* JSON-ish values become the inductive `Value`; documents (Python dicts
  produced by `model_dump`) become association lists `Doc`.
* Python floats are modelled as rationals (`ℚ`): the claims under study
  concern parsing and verbatim fall-back, not floating-point rounding.
* `F1Database.bulk_insert` becomes `bulk_insert`, written as an explicit
  try/except structure over an abstract storage collaborator `Storage`;
  the MongoDB behaviour assumed by the code (unordered inserts against a
  unique index, `UpdateOne` upserts) is the concrete model `mongoStorage`.
* Python exceptions become the inductive `PyErr` threaded through
  `Except`.
* The batching / rate-limited-logging loop of `ingest_laps` (and its twin
  in `ingest_intervals`) becomes the fold `ingest_laps_run`.
-/

/-- JSON-ish scalar values stored in documents.  Python floats are
modelled as rationals. -/
inductive Value where
  | vNull : Value
  | vInt : Int → Value
  | vFloat : ℚ → Value
  | vStr : String → Value
  | vBool : Bool → Value
deriving DecidableEq, Repr

/-- A document: a Python dict as an association list (field name, value).
`model_dump` produces dicts, so well-formed documents have pairwise
distinct field names. -/
abbrev Doc := List (String × Value)

/-- `d[k]` as a total lookup: `some v` when the field is present
(first occurrence), `none` when absent. -/
def Doc.get? (d : Doc) (k : String) : Option Value :=
  (d.find? (fun p => decide (p.1 = k))).map (fun p => p.2)

/-- Python exceptions that can cross `bulk_insert`'s boundaries:
`KeyError` from `doc[upsert_key]`, pymongo's `BulkWriteError` (which
carries `details["nInserted"]` and a message), anything else. -/
inductive PyErr where
  | keyError : String → PyErr
  | bulkWriteError : Nat → String → PyErr
  | otherError : String → PyErr
deriving DecidableEq, Repr

/-- `str(e)` for the modelled exceptions. -/
def pyStr : PyErr → String
  | .keyError k => k
  | .bulkWriteError _ msg => msg
  | .otherError msg => msg

/-- `getattr(e, "details", {}).get("nInserted", 0)`. -/
def errNInserted : PyErr → Nat
  | .bulkWriteError n _ => n
  | _ => 0

/-- Whether `pat` occurs as a contiguous run inside `s` (characters). -/
def listContainsRun (pat : List Char) : List Char → Bool
  | [] => pat.isEmpty
  | c :: rest => pat.isPrefixOf (c :: rest) || listContainsRun pat rest

/-- Python's `pat in s` on strings. -/
def strContains (s pat : String) : Bool :=
  listContainsRun pat.data s.data

/-- `database.py` lines 146-148: error messages longer than 200
characters are cut to 200 characters plus a marker. -/
def truncateErr (msg : String) : String :=
  if msg.length > 200 then String.mk (msg.data.take 200) ++ "... (truncated)" else msg

/-- One `UpdateOne(filter, {"$set": doc}, upsert=True)` operation with an
equality filter on a single field. -/
structure UpdateOneOp where
  filterKey : String
  filterVal : Value
  doc : Doc
deriving DecidableEq, Repr

/-- The counts reported by a pymongo `BulkWriteResult`. -/
structure BulkWriteResult where
  upserted_count : Nat
  modified_count : Nat
deriving DecidableEq, Repr

/-- The storage collaborator: the two primitives `bulk_insert` calls.
Each takes the collection's current contents and returns the new
contents and either a result or a raised exception. -/
structure Storage where
  insertMany : List Doc → List Doc → List Doc × Except PyErr Nat
  bulkWrite : List UpdateOneOp → List Doc → List Doc × Except PyErr BulkWriteResult

/-- `database.py` lines 111-116: build the `UpdateOne` list; `doc[upsert_key]`
raises `KeyError` on the first document missing the key. -/
def buildUpsertOps (key : String) : List Doc → Except PyErr (List UpdateOneOp)
  | [] => .ok []
  | d :: rest =>
    match d.get? key with
    | none => .error (.keyError key)
    | some v => (buildUpsertOps key rest).map (fun ops => ⟨key, v, d⟩ :: ops)

/-- `database.py` line 133: the duplicate-skip debug log line. -/
def skipLog (duplicates : Nat) (collection_name : String) : String :=
  s!"Skipped {duplicates} duplicates in {collection_name}"

/-- `database.py` line 139: the success info log line. -/
def insertedLog (n : Nat) (collection_name : String) : String :=
  s!"Inserted/Updated {n} documents in {collection_name}"

/-- `database.py` line 149: the outer error log line. -/
def bulkErrorLog (collection_name : String) (e : PyErr) : String :=
  s!"Error bulk inserting to {collection_name}: {truncateErr (pyStr e)}"

/-- The body of the outer `try` of `bulk_insert` (`database.py` lines
107-137): either a count plus the logs emitted so far, or the exception
that escapes to the outer handler.  The inner `try/except` around
`insert_many` is the `match` on its result: a `BulkWriteError` whose
message mentions a duplicate key is absorbed (lines 127-135), anything
else is re-raised (line 137). -/
def bulk_insert_try (st : Storage) (store : List Doc) (collection_name : String)
    (documents : List Doc) (upsert_key : Option String) :
    List Doc × Except PyErr (Nat × List String) :=
  match upsert_key with
  | some key =>
    match buildUpsertOps key documents with
    | .error e => (store, .error e)
    | .ok operations =>
      match st.bulkWrite operations store with
      | (store', .error e) => (store', .error e)
      | (store', .ok r) => (store', .ok (r.upserted_count + r.modified_count, []))
  | none =>
    match st.insertMany documents store with
    | (store', .ok n) => (store', .ok (n, []))
    | (store', .error bulk_error) =>
      if strContains (pyStr bulk_error) "duplicate key error" then
        let inserted_count := errNInserted bulk_error
        let duplicates := documents.length - inserted_count
        let logs := if duplicates > 0 then [skipLog duplicates collection_name] else []
        (store', .ok (inserted_count, logs))
      else
        (store', .error bulk_error)

/-- `F1Database.bulk_insert` (`database.py` lines 97-150).  Returns the
new collection contents, the returned count, and the log lines emitted.
The outer `except` (lines 144-150) turns any escaping exception into a
truncated error log and a returned count of 0. -/
def bulk_insert (st : Storage) (store : List Doc) (collection_name : String)
    (documents : List Doc) (upsert_key : Option String) :
    List Doc × Nat × List String :=
  if documents.isEmpty then (store, 0, [])
  else
    match bulk_insert_try st store collection_name documents upsert_key with
    | (store', .ok (inserted_count, logs)) =>
      (store', inserted_count, logs ++ [insertedLog inserted_count collection_name])
    | (store', .error e) =>
      (store', 0, [bulkErrorLog collection_name e])

/-- Whether the collection already holds a document whose value at the
unique-index field `k` equals `d`'s (MongoDB treats a missing field as
null, so two absent keys collide, matching `Option` equality here). -/
def keyClash (k : String) (store : List Doc) (d : Doc) : Bool :=
  store.any (fun e => decide (e.get? k = d.get? k))

/-- Unordered `insert_many` against a unique index on field `k`: each
document is appended unless its key value is already present (in the
initial contents or earlier in the batch); returns the new contents and
the number inserted. -/
def insertManyUnordered (k : String) (store : List Doc) : List Doc → List Doc × Nat
  | [] => (store, 0)
  | d :: rest =>
    if keyClash k store d then
      insertManyUnordered k store rest
    else
      let r := insertManyUnordered k (store ++ [d]) rest
      (r.1, r.2 + 1)

/-- The message of a MongoDB duplicate-key `BulkWriteError`. -/
def dupKeyMsg : String :=
  "E11000 duplicate key error collection index dup key, full error details omitted"

/-- MongoDB `insert_many(documents, ordered=False)` on a collection whose
unique index (if any) is on the named field: all-inserted returns the
count, any skipped document raises a `BulkWriteError` carrying
`nInserted`. -/
def mongoInsertMany (uniqueKey : Option String) (documents : List Doc)
    (store : List Doc) : List Doc × Except PyErr Nat :=
  match uniqueKey with
  | none => (store ++ documents, .ok documents.length)
  | some k =>
    let r := insertManyUnordered k store documents
    if r.2 = documents.length then (r.1, .ok r.2)
    else (r.1, .error (.bulkWriteError r.2 dupKeyMsg))

/-- `$set` of a single field: overwrite in place if present, else append. -/
def setField (d : Doc) (k : String) (v : Value) : Doc :=
  if d.any (fun p => decide (p.1 = k)) then
    d.map (fun p => if p.1 = k then (k, v) else p)
  else d ++ [(k, v)]

/-- `{"$set": upd}` applied to document `d`. -/
def setFields (d : Doc) (upd : Doc) : Doc :=
  upd.foldl (fun acc p => setField acc p.1 p.2) d

/-- Apply `UpdateOne(filter, {"$set": upd}, upsert=True)` to the first
matching document: `some (newStore, modified?)`, or `none` when nothing
matches.  A document counts as modified only when `$set` changed it. -/
def updateFirst (k : String) (v : Value) (upd : Doc) : List Doc → Option (List Doc × Bool)
  | [] => none
  | d :: rest =>
    if d.get? k = some v then
      let d' := setFields d upd
      some (d' :: rest, decide (d' ≠ d))
    else
      (updateFirst k v upd rest).map (fun r => (d :: r.1, r.2))

/-- One upsert operation against the collection: update the first match,
or insert the document when nothing matches. -/
def applyUpdateOne (op : UpdateOneOp) (store : List Doc) : List Doc × Nat × Nat :=
  match updateFirst op.filterKey op.filterVal op.doc store with
  | some (store', m) => (store', 0, if m then 1 else 0)
  | none => (store ++ [op.doc], 1, 0)

/-- MongoDB `bulk_write(operations, ordered=False)` for a list of upserts:
counts upserted and modified documents. -/
def mongoBulkWrite (ops : List UpdateOneOp) (store : List Doc) :
    List Doc × Except PyErr BulkWriteResult :=
  let r := ops.foldl
    (fun (acc : List Doc × BulkWriteResult) op =>
      let a := applyUpdateOne op acc.1
      (a.1, ⟨acc.2.upserted_count + a.2.1, acc.2.modified_count + a.2.2⟩))
    (store, ⟨0, 0⟩)
  (r.1, .ok r.2)

/-- The MongoDB storage collaborator assumed by `database.py`, for a
collection whose unique index (if any) is on the named field. -/
def mongoStorage (uniqueKey : Option String) : Storage :=
  ⟨mongoInsertMany uniqueKey, mongoBulkWrite⟩

/-- Number of batch documents whose key value is already stored: the `K`
of the duplicate-batch scenario. -/
def dupCount (k : String) (store documents : List Doc) : Nat :=
  (documents.filter (keyClash k store)).length

/-- Number of stored documents whose field `k` holds exactly `v`. -/
def countWithKey (k : String) (v : Value) (store : List Doc) : Nat :=
  (store.filter (fun d => decide (d.get? k = some v))).length

/-- Numeric value of a digit run. -/
def digitsToNat (ds : List Char) : Nat :=
  ds.foldl (fun a c => a * 10 + (c.toNat - 48)) 0

/-- The integer skeleton of a parsed float literal: sign, all mantissa
digits as one number, how many of them sit after the point, and the
signed exponent. -/
structure FloatRep where
  neg : Bool
  mant : Nat
  fracLen : Nat
  exp : Int
deriving DecidableEq, Repr

/-- The rational a float literal skeleton denotes. -/
def ratOfRep (r : FloatRep) : ℚ :=
  (if r.neg then -1 else 1) * (r.mant : ℚ) / (10 : ℚ) ^ r.fracLen * (10 : ℚ) ^ r.exp

/-- Mantissa of a Python float literal: digits with an optional fractional
part (at least one digit overall); returns `(allDigits, fracLen)` and the
rest of the input. -/
def parseMantissa (cs : List Char) : Option ((Nat × Nat) × List Char) :=
  let ip := cs.takeWhile Char.isDigit
  let cs1 := cs.dropWhile Char.isDigit
  match cs1 with
  | '.' :: r =>
    let fp := r.takeWhile Char.isDigit
    let cs2 := r.dropWhile Char.isDigit
    if ip.isEmpty && fp.isEmpty then none
    else some ((digitsToNat (ip ++ fp), fp.length), cs2)
  | _ =>
    if ip.isEmpty then none
    else some ((digitsToNat ip, 0), cs1)

/-- Optional exponent part `e`/`E`, sign, digits; `some (exponent, rest)`. -/
def parseExponent : List Char → Option (Int × List Char)
  | 'e' :: r => parseExponentDigits r
  | 'E' :: r => parseExponentDigits r
  | cs => some (0, cs)
where
  /-- Signed digit run after the exponent marker. -/
  parseExponentDigits (r : List Char) : Option (Int × List Char) :=
    let (neg, r1) := match r with
      | '+' :: r2 => (false, r2)
      | '-' :: r2 => (true, r2)
      | r2 => (false, r2)
    let ds := r1.takeWhile Char.isDigit
    let rest := r1.dropWhile Char.isDigit
    if ds.isEmpty then none
    else some ((if neg then -(digitsToNat ds : Int) else (digitsToNat ds : Int)), rest)

/-- Python's `float(s)` on a string, down to the integer skeleton: strips
surrounding spaces, then optional sign, decimal mantissa, optional
exponent, and nothing else.  Non-finite literal forms (`inf`, `nan`),
which have no rational value, are left unparsed. -/
def pyFloatRep (s : String) : Option FloatRep :=
  let cs := (((s.data.dropWhile (fun c => c = ' ')).reverse.dropWhile
    (fun c => c = ' ')).reverse)
  let (neg, cs1) : Bool × List Char := match cs with
    | '+' :: r => (false, r)
    | '-' :: r => (true, r)
    | r => (false, r)
  match parseMantissa cs1 with
  | none => none
  | some ((mant, fracLen), cs2) =>
    match parseExponent cs2 with
    | none => none
    | some (e, cs3) => if cs3.isEmpty then some ⟨neg, mant, fracLen, e⟩ else none

/-- Python's `float(s)` on a string, as a rational. -/
def pyFloat (s : String) : Option ℚ :=
  (pyFloatRep s).map ratOfRep

/-- Input values reaching the `gap_to_leader` / `interval` validator:
`None`, a string, or a number (pydantic's `mode="before"` sees the raw
JSON value). -/
def parse_gap_values (v : Value) : Value :=
  match v with
  | .vNull => .vNull
  | .vStr s =>
    match pyFloat s with
    | some q => .vFloat q
    | none => .vStr s
  | .vInt n => .vFloat (n : ℚ)
  | .vFloat q => .vFloat q
  | .vBool b => .vFloat (if b then 1 else 0)

/-- A session object as used by `fetch_latest_session`: the fields the
selection reads, with `date_start` the raw ISO-8601 string (compared
lexicographically by Python's `max`). -/
structure SessionItem where
  session_key : Int
  session_name : String
  location : String
  date_start : String
deriving DecidableEq, Repr

/-- Python's `max(first :: rest, key=key)`: keeps the current maximum and
replaces it only on a strictly greater key, so the first maximal element
wins ties. -/
def pyMaxBy {α β : Type} [LinearOrder β] (key : α → β) : α → List α → α
  | a, [] => a
  | a, b :: rest => if key a < key b then pyMaxBy key b rest else pyMaxBy key a rest

/-- `TestDataIngestion.fetch_latest_session` (`data_ingestion.py` lines
27-40): given the discovery response's status and body, return the
session with the latest `date_start`, or raise
`Exception("Could not fetch latest session")` on a non-200 status or an
empty body. -/
def fetch_latest_session (status : Nat) (sessions : List SessionItem) :
    Except String SessionItem :=
  if status = 200 then
    match sessions with
    | [] => .error "Could not fetch latest session"
    | s :: rest => .ok (pyMaxBy (fun x => x.date_start) s rest)
  else .error "Could not fetch latest session"

/-- `config.py`: the batch size threshold. -/
def BATCH_SIZE : Nat := 5000

/-- The two shapes of error-log output the laps/intervals loops produce
for a failing record: a verbose per-record warning, or the single
"suppressing further messages" notice. -/
inductive LogEvent where
  | verboseError : LogEvent
  | summaryNotice : LogEvent
deriving DecidableEq, Repr

/-- The loop state of `ingest_laps` (`data_ingestion.py` lines 109-137):
the buffer of validated records, the payload of every `bulk_insert` call
made so far (in order), and the error-log events emitted so far. -/
structure LapsState where
  laps : List Doc
  writes : List (List Doc)
  logs : List LogEvent
deriving DecidableEq, Repr

/-- One iteration of the `for item in data` loop of `ingest_laps`.  A
record is abstracted to its validation outcome: `some doc` when
`Lap(**item)` succeeds (producing `doc`), `none` when it raises.  On
success the record joins the buffer, which is flushed when it reaches
`bs` records; on failure the error branch logs verbosely while fewer
than 3 records sit in the buffer, logs the one summary notice at exactly
3, and stays silent otherwise (`len(laps)` is the buffer length). -/
def laps_step (bs : Nat) (st : LapsState) (item : Option Doc) : LapsState :=
  match item with
  | some d =>
    let laps := st.laps ++ [d]
    if bs ≤ laps.length then
      { laps := [], writes := st.writes ++ [laps], logs := st.logs }
    else
      { st with laps := laps }
  | none =>
    if st.laps.length < 3 then { st with logs := st.logs ++ [.verboseError] }
    else if st.laps.length = 3 then { st with logs := st.logs ++ [.summaryNotice] }
    else st

/-- The whole `ingest_laps` loop plus its trailing-flush code
(`data_ingestion.py` lines 109-137): after the fold, the remaining
buffer is written by BOTH of the two identical `if laps:` blocks (lines
131-133 and 135-137) — the buffer is not cleared in between. -/
def ingest_laps_run (bs : Nat) (items : List (Option Doc)) : LapsState :=
  let st := items.foldl (laps_step bs) ⟨[], [], []⟩
  let st := if st.laps.isEmpty then st else { st with writes := st.writes ++ [st.laps] }
  if st.laps.isEmpty then st else { st with writes := st.writes ++ [st.laps] }

/-- `ingest_laps`'s returned count (`data_ingestion.py` line 140): the
records of the fetched list that re-validate successfully. -/
def ingest_laps_count (items : List (Option Doc)) : Nat :=
  (items.filter (fun i => i.isSome)).length

/-- The loop state of `ingest_positions` (`data_ingestion.py` lines
155-173): buffer and writer-call payloads. -/
structure PositionsState where
  positions : List Doc
  writes : List (List Doc)
deriving DecidableEq, Repr

/-- One iteration of the `for item in data` loop of `ingest_positions`:
a failing record is only logged, a valid one joins the buffer, flushed
at `bs` records. -/
def positions_step (bs : Nat) (st : PositionsState) (item : Option Doc) : PositionsState :=
  match item with
  | some d =>
    let positions := st.positions ++ [d]
    if bs ≤ positions.length then
      { positions := [], writes := st.writes ++ [positions] }
    else
      { st with positions := positions }
  | none => st

/-- The `ingest_positions` loop plus its single trailing flush
(`data_ingestion.py` lines 172-173). -/
def ingest_positions_run (bs : Nat) (items : List (Option Doc)) : PositionsState :=
  let st := items.foldl (positions_step bs) ⟨[], []⟩
  if st.positions.isEmpty then st else { st with writes := st.writes ++ [st.positions] }

/-- `ingest_positions`'s returned count (`data_ingestion.py` lines
175-177): `total_count = len(data)`, regardless of validation
failures. -/
def ingest_positions_count (items : List (Option Doc)) : Nat :=
  items.length

/-- A car-telemetry record as the speed partition sees it: the `speed`
gauge the fetch filters compare, plus whether the record passes
`CarData(**item)` validation. -/
structure CarRec where
  speed : Int
  valid : Bool
deriving DecidableEq, Repr

/-- The four speed-range filters of `_ingest_car_data_by_drivers`
(`data_ingestion.py` lines 266-271), in source order:
`speed=0`, `speed>=1&speed<150`, `speed>=150&speed<350`, `speed>=350`. -/
def speed_filters : List (Int → Bool) :=
  [ fun s => decide (s = 0),
    fun s => decide (1 ≤ s) && decide (s < 150),
    fun s => decide (150 ≤ s) && decide (s < 350),
    fun s => decide (350 ≤ s) ]

/-- `_process_car_data_batch`'s returned `successful_count`
(`data_ingestion.py` lines 296-325): the records of the batch that
validate. -/
def process_car_data_batch_count (data : List CarRec) : Nat :=
  (data.filter (fun r => r.valid)).length

/-- The count aggregation of `_ingest_car_data_by_drivers`
(`data_ingestion.py` lines 253-294): for each driver, for each speed
filter in order, fetch that slice and add its processed count to the
running total.  `fetchData dn f` is the upstream response for one
driver/filter pair. -/
def ingest_car_data_by_drivers_total (fetchData : Nat → (Int → Bool) → List CarRec)
    (drivers : List Nat) : Nat :=
  drivers.foldl
    (fun total dn =>
      speed_filters.foldl (fun t f => t + process_car_data_batch_count (fetchData dn f)) total)
    0

/-- The size-level shadow of `LapsState`: buffer length and writer-call
sizes.  Used to evaluate long runs of the loop. -/
structure LapsStateN where
  bufLen : Nat
  callSizes : List Nat
  logs : List LogEvent
deriving DecidableEq, Repr

/-- `laps_step` on sizes only (`true` = record validated). -/
def laps_stepN (bs : Nat) (st : LapsStateN) (item : Bool) : LapsStateN :=
  match item with
  | true =>
    if bs ≤ st.bufLen + 1 then ⟨0, st.callSizes ++ [st.bufLen + 1], st.logs⟩
    else ⟨st.bufLen + 1, st.callSizes, st.logs⟩
  | false =>
    if st.bufLen < 3 then { st with logs := st.logs ++ [.verboseError] }
    else if st.bufLen = 3 then { st with logs := st.logs ++ [.summaryNotice] }
    else st

/-- `ingest_laps_run` on sizes only, with the same double trailing
flush. -/
def ingest_laps_runN (bs : Nat) (items : List Bool) : LapsStateN :=
  let st := items.foldl (laps_stepN bs) ⟨0, [], []⟩
  let st := if st.bufLen = 0 then st else { st with callSizes := st.callSizes ++ [st.bufLen] }
  if st.bufLen = 0 then st else { st with callSizes := st.callSizes ++ [st.bufLen] }

/-- A storage collaborator whose primitives always raise the given
non-duplicate error: models an arbitrary hard storage failure. -/
def failingStorage (msg : String) : Storage :=
  ⟨fun _ store => (store, .error (.otherError msg)),
   fun _ store => (store, .error (.otherError msg))⟩

/-- A 300-character error message, exceeding the 200-character cut. -/
def longMsg : String := String.mk (List.replicate 300 'x')

lemma String.add_length (a b : String) : (a ++ b).length = a.length + b.length := by
  cases a; cases b
  show List.length (_ ++ _) = _
  simp [String.length]

lemma truncateErr_length_le (msg : String) : (truncateErr msg).length ≤ 215 := by
  unfold truncateErr
  split
  · next h =>
    have h1 : (String.mk (msg.data.take 200)).length ≤ 200 := by
      show (msg.data.take 200).length ≤ 200
      exact List.length_take_le 200 msg.data
    have h3 : ("... (truncated)" : String).length = 15 := rfl
    rw [String.add_length]
    omega
  · next h => omega

/-- C3: for the `gap_to_leader` / `interval` validator, a float parse is
attempted first; on parse failure the original string is kept verbatim
and no exception escapes; `"+1 LAP"` is kept as that exact string,
`"1.234"` becomes the float 1.234, and `None` stays `None`. -/
theorem C3_gap_value_coercion :
    parse_gap_values .vNull = .vNull ∧
    parse_gap_values (.vStr "+1 LAP") = .vStr "+1 LAP" ∧
    parse_gap_values (.vStr "1.234") = .vFloat (1234 / 1000) ∧
    (∀ s : String, pyFloat s = none → parse_gap_values (.vStr s) = .vStr s) ∧
    (∀ (s : String) (q : ℚ), pyFloat s = some q → parse_gap_values (.vStr s) = .vFloat q) := by
  refine ⟨rfl, ?_, ?_, ?_, ?_⟩
  · simp [parse_gap_values, pyFloat, show pyFloatRep "+1 LAP" = none from by decide]
  · simp [parse_gap_values, pyFloat,
      show pyFloatRep "1.234" = some ⟨false, 1234, 3, 0⟩ from by decide]
    norm_num [ratOfRep]
  · intro s h
    simp [parse_gap_values, h]
  · intro s q h
    simp [parse_gap_values, h]

/-- Witness for C3 at further concrete inputs: `"+2 LAPS"` fails the
float parse and is kept verbatim; `"2.5"` parses to 5/2. -/
theorem C3_gap_value_coercion_witness :
    parse_gap_values (.vStr "+2 LAPS") = .vStr "+2 LAPS" ∧
    parse_gap_values (.vStr "2.5") = .vFloat (5 / 2) :=
  ⟨C3_gap_value_coercion.2.2.2.1 "+2 LAPS" (by decide),
   C3_gap_value_coercion.2.2.2.2 "2.5" (5 / 2) (by
    simp [pyFloat, show pyFloatRep "2.5" = some ⟨false, 25, 1, 0⟩ from by decide]
    norm_num [ratOfRep])⟩

lemma pyMaxBy_mem {α β : Type} [LinearOrder β] (key : α → β) (a : α) (l : List α) :
    pyMaxBy key a l = a ∨ pyMaxBy key a l ∈ l := by
  induction l generalizing a with
  | nil => exact Or.inl rfl
  | cons b rest ih =>
    simp only [pyMaxBy]
    split
    · rcases ih b with h | h
      · exact Or.inr (by simp [h])
      · exact Or.inr (by simp [h])
    · rcases ih a with h | h
      · exact Or.inl h
      · exact Or.inr (by simp [h])

lemma pyMaxBy_le {α β : Type} [LinearOrder β] (key : α → β) (a : α) (l : List α) :
    key a ≤ key (pyMaxBy key a l) ∧ ∀ x ∈ l, key x ≤ key (pyMaxBy key a l) := by
  induction l generalizing a with
  | nil => exact ⟨le_refl _, by simp⟩
  | cons b rest ih =>
    simp only [pyMaxBy]
    split
    · next h =>
      refine ⟨le_trans (le_of_lt h) (ih b).1, ?_⟩
      intro x hx
      rcases List.mem_cons.mp hx with hxb | hx
      · rw [hxb]; exact (ih b).1
      · exact (ih b).2 x hx
    · next h =>
      refine ⟨(ih a).1, ?_⟩
      intro x hx
      rcases List.mem_cons.mp hx with hxb | hx
      · rw [hxb]; exact le_trans (not_lt.mp h) (ih a).1
      · exact (ih a).2 x hx

/-- C5: session discovery returns the candidate with the maximum
`date_start` when the fetch succeeded (status 200) with a non-empty
list, and raises (aborting the run) on a non-200 status or an empty
list. -/
theorem C5_session_discovery :
    (∀ (s : SessionItem) (rest : List SessionItem),
      ∃ m, fetch_latest_session 200 (s :: rest) = .ok m ∧ m ∈ s :: rest ∧
        ∀ t ∈ s :: rest, t.date_start ≤ m.date_start) ∧
    (∀ (status : Nat) (sessions : List SessionItem),
      status ≠ 200 ∨ sessions = [] →
      fetch_latest_session status sessions = .error "Could not fetch latest session") := by
  constructor
  · intro s rest
    refine ⟨pyMaxBy (fun x => x.date_start) s rest, ?_, ?_, ?_⟩
    · simp [fetch_latest_session]
    · rcases pyMaxBy_mem (fun x => x.date_start) s rest with h | h
      · rw [h]; exact List.mem_cons_self s rest
      · exact List.mem_cons_of_mem s h
    · intro t ht
      rcases List.mem_cons.mp ht with rfl | ht
      · exact (pyMaxBy_le (fun x => x.date_start) t rest).1
      · exact (pyMaxBy_le (fun x => x.date_start) s rest).2 t ht
  · intro status sessions h
    rcases h with h | rfl
    · simp [fetch_latest_session, h]
    · unfold fetch_latest_session
      split <;> rfl

/-- Witness for C5: three candidates with distinct start dates select
the latest one; a non-200 status and an empty list each raise. -/
theorem C5_session_discovery_witness :
    (∃ m, fetch_latest_session 200
        [⟨9111, "Race", "Monza", "2024-03-02T15:00:00+00:00"⟩,
         ⟨9222, "Race", "Spa", "2024-11-03T14:00:00+00:00"⟩,
         ⟨9333, "Race", "Suzuka", "2024-07-07T13:00:00+00:00"⟩] = .ok m ∧
      m ∈ [⟨9111, "Race", "Monza", "2024-03-02T15:00:00+00:00"⟩,
         ⟨9222, "Race", "Spa", "2024-11-03T14:00:00+00:00"⟩,
         ⟨9333, "Race", "Suzuka", "2024-07-07T13:00:00+00:00"⟩] ∧
      ∀ t ∈ ([⟨9111, "Race", "Monza", "2024-03-02T15:00:00+00:00"⟩,
         ⟨9222, "Race", "Spa", "2024-11-03T14:00:00+00:00"⟩,
         ⟨9333, "Race", "Suzuka", "2024-07-07T13:00:00+00:00"⟩] : List SessionItem),
        t.date_start ≤ m.date_start) ∧
    fetch_latest_session 404 [⟨1, "a", "b", "c"⟩] = .error "Could not fetch latest session" ∧
    fetch_latest_session 200 [] = .error "Could not fetch latest session" :=
  ⟨C5_session_discovery.1 _ _,
   C5_session_discovery.2 404 _ (Or.inl (by decide)),
   C5_session_discovery.2 200 [] (Or.inr rfl)⟩

/-- C2: the batch writer returns 0 on empty input touching no storage
(the result is the same for every storage collaborator and leaves the
collection unchanged); any exception escaping the try body — for any
storage behaviour — is caught, the call reports 0, and the logged error
message is truncated to at most 215 characters; a normally completing
try body yields its count.  No branch re-raises. -/
theorem C2_writer_never_raises :
    (∀ (st : Storage) (store : List Doc) (c : String) (k : Option String),
      bulk_insert st store c [] k = (store, 0, [])) ∧
    (∀ (st : Storage) (store store' : List Doc) (c : String) (documents : List Doc)
      (k : Option String) (e : PyErr),
      documents ≠ [] →
      bulk_insert_try st store c documents k = (store', .error e) →
      bulk_insert st store c documents k = (store', 0, [bulkErrorLog c e]) ∧
        (truncateErr (pyStr e)).length ≤ 215) ∧
    (∀ (st : Storage) (store store' : List Doc) (c : String) (documents : List Doc)
      (k : Option String) (n : Nat) (logs : List String),
      documents ≠ [] →
      bulk_insert_try st store c documents k = (store', .ok (n, logs)) →
      bulk_insert st store c documents k = (store', n, logs ++ [insertedLog n c])) := by
  refine ⟨?_, ?_, ?_⟩
  · intro st store c k
    simp [bulk_insert]
  · intro st store store' c documents k e hne htry
    rw [bulk_insert, if_neg (by simpa using hne), htry]
    exact ⟨rfl, truncateErr_length_le _⟩
  · intro st store store' c documents k n logs hne htry
    rw [bulk_insert, if_neg (by simpa using hne), htry]

set_option maxRecDepth 4000 in
/-- Witness for C2: a storage collaborator that always raises a
300-character non-duplicate error makes the call return 0 with the
truncated log, leaving the store unchanged; empty input returns 0. -/
theorem C2_writer_never_raises_witness :
    bulk_insert (failingStorage longMsg) [] "laps" [[]] none
      = ([], 0, [bulkErrorLog "laps" (.otherError longMsg)]) ∧
    (truncateErr (pyStr (.otherError longMsg))).length ≤ 215 ∧
    bulk_insert (failingStorage longMsg) [] "laps" [] none = ([], 0, []) := by
  have h := C2_writer_never_raises.2.1 (failingStorage longMsg) [] [] "laps" [[]] none
    (.otherError longMsg) (by simp)
    (by simp [bulk_insert_try, failingStorage,
      show strContains (pyStr (.otherError longMsg)) "duplicate key error" = false from
        by decide])
  exact ⟨h.1, h.2, C2_writer_never_raises.1 (failingStorage longMsg) [] "laps" none⟩

lemma buildUpsertOps_missing (key : String) (docs : List Doc)
    (h : ∃ d ∈ docs, d.get? key = none) :
    buildUpsertOps key docs = .error (.keyError key) := by
  induction docs with
  | nil => simp at h
  | cons d rest ih =>
    rcases h with ⟨d', hd', hget⟩
    rcases List.mem_cons.mp hd' with hdd | hd'
    · rw [buildUpsertOps, ← hdd, hget]
    · rw [buildUpsertOps]
      cases hdg : d.get? key with
      | none => rfl
      | some v => rw [ih ⟨d', hd', hget⟩]; rfl

/-- C10: in upsert mode, a non-empty batch in which some document lacks
the upsert key makes `bulk_insert` fail while building the operation
list: no bulk write is issued (the result holds for every storage
collaborator and the collection contents are returned unchanged), no
exception escapes, and the returned count is 0. -/
theorem C10_upsert_missing_key :
    ∀ (st : Storage) (store : List Doc) (c : String) (documents : List Doc) (key : String),
      documents ≠ [] →
      (∃ d ∈ documents, d.get? key = none) →
      bulk_insert st store c documents (some key)
        = (store, 0, [bulkErrorLog c (.keyError key)]) := by
  intro st store c documents key hne hmiss
  rw [bulk_insert, if_neg (by simpa using hne)]
  rw [show bulk_insert_try st store c documents (some key) = (store, .error (.keyError key))
    from by rw [bulk_insert_try, buildUpsertOps_missing key documents hmiss]]

/-- Witness for C10: a singleton batch whose document has no
`session_key` field, against the MongoDB model: count 0, store
unchanged, error logged. -/
theorem C10_upsert_missing_key_witness :
    bulk_insert (mongoStorage (some "session_key")) [] "sessions"
      [[("location", .vStr "Monza")]] (some "session_key")
      = ([], 0, [bulkErrorLog "sessions" (.keyError "session_key")]) :=
  C10_upsert_missing_key (mongoStorage (some "session_key")) [] "sessions"
    [[("location", .vStr "Monza")]] "session_key" (by simp)
    ⟨[("location", .vStr "Monza")], by simp, by decide⟩

lemma dupCount_cons (k : String) (store : List Doc) (d : Doc) (rest : List Doc) :
    dupCount k store (d :: rest)
      = (if keyClash k store d then 1 else 0) + dupCount k store rest := by
  simp only [dupCount, List.filter_cons]
  split <;> simp [Nat.add_comm]

lemma dupCount_le (k : String) (store docs : List Doc) :
    dupCount k store docs ≤ docs.length :=
  List.length_filter_le _ _

lemma dupCount_append_singleton (k : String) (store : List Doc) (e : Doc) (docs : List Doc)
    (h : ∀ d ∈ docs, ¬(e.get? k = d.get? k)) :
    dupCount k (store ++ [e]) docs = dupCount k store docs := by
  unfold dupCount
  congr 1
  apply List.filter_congr
  intro d hd
  have he : decide (e.get? k = d.get? k) = false := by
    simpa using h d hd
  simp [keyClash, List.any_append, he]

lemma insertManyUnordered_count (k : String) (docs : List Doc) :
    ∀ store : List Doc, (docs.map (fun d => d.get? k)).Nodup →
    (insertManyUnordered k store docs).2 = docs.length - dupCount k store docs := by
  induction docs with
  | nil =>
    intro store _
    simp [insertManyUnordered, dupCount]
  | cons d rest ih =>
    intro store h
    have hmap : ((d :: rest).map (fun x => x.get? k))
        = d.get? k :: rest.map (fun x => x.get? k) := by simp
    rw [hmap] at h
    have hd : d.get? k ∉ rest.map (fun x => x.get? k) := (List.nodup_cons.mp h).1
    have hn : (rest.map (fun x => x.get? k)).Nodup := (List.nodup_cons.mp h).2
    rw [insertManyUnordered]
    split
    · next hc =>
      rw [ih store hn, dupCount_cons, if_pos hc]
      have := dupCount_le k store rest
      simp only [List.length_cons]
      omega
    · next hc =>
      have hrest : ∀ x ∈ rest, ¬(d.get? k = x.get? k) := by
        intro x hx heq
        exact hd (heq ▸ List.mem_map_of_mem (fun y => y.get? k) hx)
      show (insertManyUnordered k (store ++ [d]) rest).2 + 1 = _
      rw [ih (store ++ [d]) hn, dupCount_append_singleton k store d rest hrest,
        dupCount_cons, if_neg hc]
      have := dupCount_le k store rest
      simp only [List.length_cons]
      omega

/-- C1: in insert-tolerant (non-upsert) mode against the MongoDB model,
a batch of N documents with pairwise distinct keys of which exactly K
collide with already-stored keys returns N − K as the count, and when
K > 0 the K duplicates are logged (the skip message is among the emitted
logs); the call completes normally in both cases. -/
theorem C1_insert_tolerant_duplicates :
    ∀ (k c : String) (store documents : List Doc),
      documents ≠ [] →
      (documents.map (fun d => d.get? k)).Nodup →
      (bulk_insert (mongoStorage (some k)) store c documents none).2.1
          = documents.length - dupCount k store documents ∧
      (0 < dupCount k store documents →
        skipLog (dupCount k store documents) c
          ∈ (bulk_insert (mongoStorage (some k)) store c documents none).2.2) := by
  intro k c store documents hne hnd
  have hcount := insertManyUnordered_count k documents store hnd
  have hKle : dupCount k store documents ≤ documents.length :=
    dupCount_le k store documents
  have hNpos : 0 < documents.length := List.length_pos.mpr hne
  rw [bulk_insert, if_neg (by simpa using hne)]
  by_cases h0 : (insertManyUnordered k store documents).2 = documents.length
  · have hK0 : dupCount k store documents = 0 := by omega
    have htry : bulk_insert_try (mongoStorage (some k)) store c documents none
        = ((insertManyUnordered k store documents).1,
            .ok ((insertManyUnordered k store documents).2, [])) := by
      simp [bulk_insert_try, mongoStorage, mongoInsertMany, h0]
    rw [htry]
    constructor
    · show (insertManyUnordered k store documents).2 = _
      omega
    · intro hc
      exact absurd hc (by omega)
  · have hKpos : 0 < dupCount k store documents := by omega
    have htry : bulk_insert_try (mongoStorage (some k)) store c documents none
        = ((insertManyUnordered k store documents).1,
            .ok ((insertManyUnordered k store documents).2,
              [skipLog (dupCount k store documents) c])) := by
      simp only [bulk_insert_try, mongoStorage, mongoInsertMany, if_neg h0, pyStr]
      rw [show strContains dupKeyMsg "duplicate key error" = true from by decide]
      simp only [errNInserted, if_pos, if_true]
      rw [hcount, Nat.sub_sub_self hKle]
      simp [hKpos]
    rw [htry]
    constructor
    · show (insertManyUnordered k store documents).2 = _
      omega
    · intro _
      show skipLog (dupCount k store documents) c ∈
        [skipLog (dupCount k store documents) c]
          ++ [insertedLog (insertManyUnordered k store documents).2 c]
      simp

/-- Witness for C1: N = 2 documents, K = 1 already-stored key: the call
returns 1 and logs the skipped duplicate. -/
theorem C1_insert_tolerant_duplicates_witness :
    (bulk_insert (mongoStorage (some "code")) [[("code", .vInt 1)]] "laps"
      [[("code", .vInt 1)], [("code", .vInt 2)]] none).2.1 = 1 ∧
    skipLog 1 "laps" ∈ (bulk_insert (mongoStorage (some "code")) [[("code", .vInt 1)]] "laps"
      [[("code", .vInt 1)], [("code", .vInt 2)]] none).2.2 := by
  have h := C1_insert_tolerant_duplicates "code" "laps" [[("code", .vInt 1)]]
    [[("code", .vInt 1)], [("code", .vInt 2)]] (by simp) (by decide)
  rw [show dupCount "code" [[("code", .vInt 1)]]
    [[("code", .vInt 1)], [("code", .vInt 2)]] = 1 from by decide] at h
  exact ⟨h.1, h.2 (by decide)⟩

lemma nodup_keys_eq {d : Doc} (hn : (d.map Prod.fst).Nodup) {p q : String × Value}
    (hp : p ∈ d) (hq : q ∈ d) (h : p.1 = q.1) : p = q := by
  induction d with
  | nil => simp at hp
  | cons a rest ih =>
    have hna : a.1 ∉ rest.map Prod.fst := (List.nodup_cons.mp (by simpa using hn)).1
    have hnr : (rest.map Prod.fst).Nodup := (List.nodup_cons.mp (by simpa using hn)).2
    rcases List.mem_cons.mp hp with rfl | hp'
    · rcases List.mem_cons.mp hq with rfl | hq'
      · rfl
      · exact absurd (h ▸ List.mem_map_of_mem Prod.fst hq') hna
    · rcases List.mem_cons.mp hq with rfl | hq'
      · exact absurd (h ▸ List.mem_map_of_mem Prod.fst hp') hna
      · exact ih hnr hp' hq'

lemma setField_mem_self {d : Doc} {k : String} {v : Value}
    (hmem : (k, v) ∈ d) (hn : (d.map Prod.fst).Nodup) : setField d k v = d := by
  unfold setField
  rw [if_pos (List.any_eq_true.mpr ⟨(k, v), hmem, by simp⟩)]
  have hmap : d.map (fun p => if p.1 = k then (k, v) else p) = d.map id := by
    apply List.map_congr_left
    intro p hp
    by_cases hpk : p.1 = k
    · simp only [if_pos hpk, id]
      exact nodup_keys_eq hn hmem hp (by simp [hpk])
    · simp only [if_neg hpk, id]
  rw [hmap, List.map_id]

lemma setFields_self {d : Doc} (hn : (d.map Prod.fst).Nodup) : setFields d d = d := by
  unfold setFields
  have : ∀ (l : List (String × Value)), (∀ p ∈ l, p ∈ d) →
      l.foldl (fun acc p => setField acc p.1 p.2) d = d := by
    intro l
    induction l with
    | nil => intro _; rfl
    | cons p rest ih =>
      intro hsub
      have hpd : (p.1, p.2) ∈ d := by
        have := hsub p (List.mem_cons_self p rest)
        simpa using this
      simp only [List.foldl_cons, setField_mem_self hpd hn]
      exact ih (fun q hq => hsub q (List.mem_cons_of_mem p hq))
  exact this d (fun p hp => hp)

lemma updateFirst_none {k : String} {v : Value} {upd : Doc} {store : List Doc}
    (h : ∀ d ∈ store, ¬(d.get? k = some v)) :
    updateFirst k v upd store = none := by
  induction store with
  | nil => rfl
  | cons d rest ih =>
    rw [updateFirst, if_neg (h d (List.mem_cons_self d rest))]
    rw [ih (fun x hx => h x (List.mem_cons_of_mem d hx))]
    rfl

lemma updateFirst_append_match {k : String} {v : Value} {upd : Doc} {store : List Doc}
    {doc : Doc} (h : ∀ d ∈ store, ¬(d.get? k = some v)) (hd : doc.get? k = some v) :
    updateFirst k v upd (store ++ [doc])
      = some (store ++ [setFields doc upd], decide (setFields doc upd ≠ doc)) := by
  induction store with
  | nil => simp [updateFirst, hd]
  | cons e rest ih =>
    rw [List.cons_append, updateFirst, if_neg (h e (List.mem_cons_self e rest))]
    rw [ih (fun x hx => h x (List.mem_cons_of_mem e hx))]
    rfl

lemma countWithKey_zero_forall {k : String} {v : Value} {store : List Doc}
    (h : countWithKey k v store = 0) : ∀ d ∈ store, ¬(d.get? k = some v) := by
  intro d hd hget
  have : d ∈ store.filter (fun x => decide (x.get? k = some v)) :=
    List.mem_filter.mpr ⟨hd, by simp [hget]⟩
  rw [List.length_eq_zero.mp h] at this
  simp at this

lemma countWithKey_append (k : String) (v : Value) (s t : List Doc) :
    countWithKey k v (s ++ t) = countWithKey k v s + countWithKey k v t := by
  simp [countWithKey, List.filter_append]

/-- C6: upsert-by-key on the MongoDB model is idempotent: writing the
same session record twice into a collection with no document under that
key leaves exactly one document for the key; the first call reports 1
(one newly-inserted) and the second 0 (the identical `$set` modifies
nothing); in general every upsert call reports the sum of the
newly-inserted and modified-existing counts of its bulk write. -/
theorem C6_upsert_idempotent :
    ∀ (uk : Option String) (k c : String) (v : Value) (doc : Doc) (store : List Doc),
      doc.get? k = some v →
      (doc.map Prod.fst).Nodup →
      countWithKey k v store = 0 →
      (countWithKey k v
          (bulk_insert (mongoStorage uk)
            (bulk_insert (mongoStorage uk) store c [doc] (some k)).1
            c [doc] (some k)).1 = 1 ∧
        (bulk_insert (mongoStorage uk) store c [doc] (some k)).2.1 = 1 ∧
        (bulk_insert (mongoStorage uk)
            (bulk_insert (mongoStorage uk) store c [doc] (some k)).1
            c [doc] (some k)).2.1 = 0) ∧
      (∀ (st : Storage) (s s' : List Doc) (documents : List Doc) (key : String)
        (ops : List UpdateOneOp) (r : BulkWriteResult),
        documents ≠ [] →
        buildUpsertOps key documents = .ok ops →
        st.bulkWrite ops s = (s', .ok r) →
        bulk_insert st s c documents (some key)
          = (s', r.upserted_count + r.modified_count,
              [insertedLog (r.upserted_count + r.modified_count) c])) := by
  intro uk k c v doc store hget hnodup hzero
  have hops : buildUpsertOps k [doc] = .ok [⟨k, v, doc⟩] := by
    rw [buildUpsertOps, hget]; rfl
  have hfail : ∀ d ∈ store, ¬(d.get? k = some v) := countWithKey_zero_forall hzero
  have hself : setFields doc doc = doc := setFields_self hnodup
  have hw1 : mongoBulkWrite [⟨k, v, doc⟩] store = (store ++ [doc], .ok ⟨1, 0⟩) := by
    simp only [mongoBulkWrite, List.foldl_cons, List.foldl_nil, applyUpdateOne,
      updateFirst_none hfail]
  have hb1 : bulk_insert (mongoStorage uk) store c [doc] (some k)
      = (store ++ [doc], 1, [insertedLog 1 c]) := by
    rw [bulk_insert, if_neg (by simp)]
    rw [show bulk_insert_try (mongoStorage uk) store c [doc] (some k)
        = (store ++ [doc], .ok (1, [])) from by
      simp only [bulk_insert_try, hops, mongoStorage, hw1]]
    rfl
  have hfail2 : updateFirst k v doc (store ++ [doc])
      = some (store ++ [doc], false) := by
    rw [updateFirst_append_match hfail hget, hself]
    simp
  have hw2 : mongoBulkWrite [⟨k, v, doc⟩] (store ++ [doc])
      = (store ++ [doc], .ok ⟨0, 0⟩) := by
    simp only [mongoBulkWrite, List.foldl_cons, List.foldl_nil, applyUpdateOne, hfail2]
    rfl
  have hb2 : bulk_insert (mongoStorage uk) (store ++ [doc]) c [doc] (some k)
      = (store ++ [doc], 0, [insertedLog 0 c]) := by
    rw [bulk_insert, if_neg (by simp)]
    rw [show bulk_insert_try (mongoStorage uk) (store ++ [doc]) c [doc] (some k)
        = (store ++ [doc], .ok (0, [])) from by
      simp only [bulk_insert_try, hops, mongoStorage, hw2]]
    rfl
  refine ⟨?_, ?_⟩
  · simp only [hb1, hb2]
    refine ⟨?_, by simp, by simp⟩
    rw [countWithKey_append, hzero]
    simp [countWithKey, hget]
  · intro st s s' documents key ops r hne hbops hbw
    rw [bulk_insert, if_neg (by simpa using hne)]
    rw [show bulk_insert_try st s c documents (some key) = (s', .ok
        (r.upserted_count + r.modified_count, [])) from by
      simp only [bulk_insert_try, hbops, hbw]]
    rfl

/-- Witness for C6: upserting one concrete session record twice into an
empty collection leaves exactly one document for its `session_key`; the
calls report 1 and then 0. -/
theorem C6_upsert_idempotent_witness :
    countWithKey "session_key" (.vInt 9999)
        (bulk_insert (mongoStorage (some "session_key"))
          (bulk_insert (mongoStorage (some "session_key")) [] "sessions"
            [[("session_key", .vInt 9999), ("location", .vStr "Monza")]]
            (some "session_key")).1
          "sessions"
          [[("session_key", .vInt 9999), ("location", .vStr "Monza")]]
          (some "session_key")).1 = 1 ∧
    (bulk_insert (mongoStorage (some "session_key")) [] "sessions"
        [[("session_key", .vInt 9999), ("location", .vStr "Monza")]]
        (some "session_key")).2.1 = 1 ∧
    (bulk_insert (mongoStorage (some "session_key"))
        (bulk_insert (mongoStorage (some "session_key")) [] "sessions"
          [[("session_key", .vInt 9999), ("location", .vStr "Monza")]]
          (some "session_key")).1
        "sessions"
        [[("session_key", .vInt 9999), ("location", .vStr "Monza")]]
        (some "session_key")).2.1 = 0 :=
  (C6_upsert_idempotent (some "session_key") "session_key" "sessions" (.vInt 9999)
    ([("session_key", .vInt 9999), ("location", .vStr "Monza")] : Doc) []
    (by decide) (by decide) (by decide)).1

lemma laps_step_equiv (bs : Nat) (st : LapsState) (item : Option Doc) :
    laps_stepN bs ⟨st.laps.length, st.writes.map List.length, st.logs⟩ item.isSome
      = ⟨(laps_step bs st item).laps.length,
          (laps_step bs st item).writes.map List.length, (laps_step bs st item).logs⟩ := by
  cases item with
  | none =>
    simp only [Option.isSome_none, laps_stepN, laps_step]
    split_ifs <;> rfl
  | some d =>
    have hl : (st.laps ++ [d]).length = st.laps.length + 1 := by simp
    simp only [Option.isSome_some, laps_stepN, laps_step, hl]
    split_ifs with h
    · simp
    · simp

lemma laps_fold_equiv (bs : Nat) (items : List (Option Doc)) :
    ∀ st : LapsState,
      (items.map Option.isSome).foldl (laps_stepN bs)
          ⟨st.laps.length, st.writes.map List.length, st.logs⟩
        = ⟨(items.foldl (laps_step bs) st).laps.length,
            (items.foldl (laps_step bs) st).writes.map List.length,
            (items.foldl (laps_step bs) st).logs⟩ := by
  induction items with
  | nil => intro st; rfl
  | cons i rest ih =>
    intro st
    simp only [List.map_cons, List.foldl_cons]
    rw [laps_step_equiv]
    exact ih (laps_step bs st i)

lemma ingest_laps_run_equiv (bs : Nat) (items : List (Option Doc)) :
    ingest_laps_runN bs (items.map Option.isSome)
      = ⟨(ingest_laps_run bs items).laps.length,
          (ingest_laps_run bs items).writes.map List.length,
          (ingest_laps_run bs items).logs⟩ := by
  unfold ingest_laps_run ingest_laps_runN
  rw [show (⟨0, [], []⟩ : LapsStateN)
      = ⟨(⟨[], [], []⟩ : LapsState).laps.length,
          (⟨[], [], []⟩ : LapsState).writes.map List.length,
          (⟨[], [], []⟩ : LapsState).logs⟩ from rfl]
  rw [laps_fold_equiv]
  set r := items.foldl (laps_step bs) ⟨[], [], []⟩ with hr
  by_cases he : r.laps.isEmpty
  · have h0 : r.laps.length = 0 := by
      rw [List.isEmpty_iff] at he
      simp [he]
    simp [he, h0]
  · have h0 : ¬(r.laps.length = 0) := by
      rw [List.isEmpty_iff] at he
      simpa [List.length_eq_zero] using he
    simp [he, h0]

lemma laps_foldN_all_true (bs : Nat) (hbs : 0 < bs) :
    ∀ (n : Nat) (st : LapsStateN), st.bufLen < bs →
      (List.replicate n true).foldl (laps_stepN bs) st
        = ⟨(st.bufLen + n) % bs,
            st.callSizes ++ List.replicate ((st.bufLen + n) / bs) bs, st.logs⟩ := by
  intro n
  induction n with
  | zero =>
    intro st h
    simp [Nat.mod_eq_of_lt h, Nat.div_eq_of_lt h]
  | succ n ih =>
    intro st h
    rw [List.replicate_succ, List.foldl_cons]
    by_cases hc : bs ≤ st.bufLen + 1
    · have hb : st.bufLen + 1 = bs := le_antisymm (Nat.succ_le_of_lt h) hc
      rw [show laps_stepN bs st true = ⟨0, st.callSizes ++ [st.bufLen + 1], st.logs⟩
        from by simp [laps_stepN, hc]]
      rw [ih ⟨0, st.callSizes ++ [st.bufLen + 1], st.logs⟩ (by simpa using hbs)]
      have e1 : st.bufLen + (n + 1) = bs + n := by omega
      have e2 : (bs + n) % bs = n % bs := Nat.add_mod_left bs n
      have e3 : (bs + n) / bs = n / bs + 1 := by
        rw [Nat.add_comm bs n, Nat.add_div_right n hbs]
      simp only [e1, e2, e3, hb, List.replicate_succ]
      simp [List.append_assoc]
    · have h' : st.bufLen + 1 < bs := lt_of_not_le hc
      rw [show laps_stepN bs st true = ⟨st.bufLen + 1, st.callSizes, st.logs⟩
        from by simp [laps_stepN, hc]]
      rw [ih ⟨st.bufLen + 1, st.callSizes, st.logs⟩ h']
      have e : st.bufLen + 1 + n = st.bufLen + (n + 1) := by omega
      simp only [e]

/-- C4 (code evaluation): feeding 12,001 records that all validate to the
laps ingester with the default batch size 5000 produces FOUR writer
calls with chunk sizes 5000, 5000, 2001, 2001: the trailing remainder
chunk of 2001 is flushed twice by the duplicated `if laps:` blocks, not
once as specified. -/
theorem C4_batching_double_flush :
    ∀ items : List (Option Doc), items.length = 12001 →
      (∀ i ∈ items, i.isSome = true) →
      (ingest_laps_run BATCH_SIZE items).writes.map List.length
        = [5000, 5000, 2001, 2001] := by
  intro items hlen hvalid
  have hmap : items.map Option.isSome = List.replicate 12001 true :=
    List.eq_replicate_iff.mpr ⟨by simp [hlen], by
      intro b hb
      obtain ⟨i, hi, rfl⟩ := List.mem_map.mp hb
      exact hvalid i hi⟩
  have hequiv := ingest_laps_run_equiv BATCH_SIZE items
  rw [hmap] at hequiv
  have hfold := laps_foldN_all_true BATCH_SIZE (by norm_num [BATCH_SIZE]) 12001
    ⟨0, [], []⟩ (by norm_num [BATCH_SIZE])
  have hmod : ((⟨0, [], []⟩ : LapsStateN).bufLen + 12001) % BATCH_SIZE = 2001 := by
    norm_num [BATCH_SIZE]
  have hdiv : ((⟨0, [], []⟩ : LapsStateN).bufLen + 12001) / BATCH_SIZE = 2 := by
    norm_num [BATCH_SIZE]
  rw [hmod, hdiv] at hfold
  have hrunN : ingest_laps_runN BATCH_SIZE (List.replicate 12001 true)
      = ⟨2001, [5000, 5000, 2001, 2001], []⟩ := by
    unfold ingest_laps_runN
    rw [hfold]
    norm_num [BATCH_SIZE]
    decide
  rw [hrunN] at hequiv
  exact (congrArg LapsStateN.callSizes hequiv).symm

/-- Witness for C4's evaluation: 12,001 concrete valid records produce
writer-call sizes 5000, 5000, 2001, 2001. -/
theorem C4_batching_double_flush_witness :
    (ingest_laps_run BATCH_SIZE (List.replicate 12001 (some ([] : Doc)))).writes.map
      List.length = [5000, 5000, 2001, 2001] :=
  C4_batching_double_flush (List.replicate 12001 (some ([] : Doc)))
    (by rw [List.length_replicate])
    (by intro i hi; rw [List.eq_of_mem_replicate hi]; rfl)

/-- C8 (code evaluation): a fetched list whose first five records all
fail validation produces FIVE verbose per-record warnings and no summary
notice: the `len(laps) < 3` gate counts buffered *valid* records, not
failures, so failures are not suppressed after the first three (and the
loop does not abort). -/
theorem C8_rate_limit_gates_on_buffer :
    (ingest_laps_run BATCH_SIZE (List.replicate 5 (none : Option Doc))).logs
      = List.replicate 5 LogEvent.verboseError := by decide

lemma laps_step_laps_sub (bs : Nat) (st : LapsState) (item : Option Doc) :
    ∀ d ∈ (laps_step bs st item).laps, d ∈ st.laps ∨ item = some d := by
  cases item with
  | none =>
    simp only [laps_step]
    split_ifs <;> (intro d hd; exact Or.inl hd)
  | some x =>
    simp only [laps_step]
    split_ifs
    · intro d hd
      simp at hd
    · intro d hd
      rcases List.mem_append.mp hd with h | h
      · exact Or.inl h
      · simp at h
        exact Or.inr (by rw [h])

lemma laps_step_writes_sub (bs : Nat) (st : LapsState) (item : Option Doc) :
    ∀ w ∈ (laps_step bs st item).writes, ∀ d ∈ w,
      (∃ w' ∈ st.writes, d ∈ w') ∨ d ∈ st.laps ∨ item = some d := by
  cases item with
  | none =>
    simp only [laps_step]
    split_ifs <;> (intro w hw d hd; exact Or.inl ⟨w, hw, hd⟩)
  | some x =>
    simp only [laps_step]
    split_ifs
    · intro w hw d hd
      rcases List.mem_append.mp hw with h | h
      · exact Or.inl ⟨w, h, hd⟩
      · simp at h
        rw [h] at hd
        rcases List.mem_append.mp hd with h' | h'
        · exact Or.inr (Or.inl h')
        · simp at h'
          exact Or.inr (Or.inr (by rw [h']))
    · intro w hw d hd
      exact Or.inl ⟨w, hw, hd⟩

lemma laps_fold_docs (bs : Nat) (items : List (Option Doc)) :
    ∀ st : LapsState,
      (∀ d ∈ (items.foldl (laps_step bs) st).laps,
        d ∈ st.laps ∨ (∃ w ∈ st.writes, d ∈ w) ∨ some d ∈ items) ∧
      (∀ w ∈ (items.foldl (laps_step bs) st).writes, ∀ d ∈ w,
        d ∈ st.laps ∨ (∃ w' ∈ st.writes, d ∈ w') ∨ some d ∈ items) := by
  induction items with
  | nil =>
    intro st
    constructor
    · intro d hd
      exact Or.inl hd
    · intro w hw d hd
      exact Or.inr (Or.inl ⟨w, hw, hd⟩)
  | cons i rest ih =>
    intro st
    rw [List.foldl_cons]
    have h := ih (laps_step bs st i)
    constructor
    · intro d hd
      rcases h.1 d hd with h1 | h1 | h1
      · rcases laps_step_laps_sub bs st i d h1 with h2 | h2
        · exact Or.inl h2
        · exact Or.inr (Or.inr (by rw [h2]; exact List.mem_cons_self _ _))
      · obtain ⟨w, hw, hdw⟩ := h1
        rcases laps_step_writes_sub bs st i w hw d hdw with h2 | h2 | h2
        · exact Or.inr (Or.inl h2)
        · exact Or.inl h2
        · exact Or.inr (Or.inr (by rw [h2]; exact List.mem_cons_self _ _))
      · exact Or.inr (Or.inr (List.mem_cons_of_mem i h1))
    · intro w hw d hd
      rcases h.2 w hw d hd with h1 | h1 | h1
      · rcases laps_step_laps_sub bs st i d h1 with h2 | h2
        · exact Or.inl h2
        · exact Or.inr (Or.inr (by rw [h2]; exact List.mem_cons_self _ _))
      · obtain ⟨w', hw', hdw⟩ := h1
        rcases laps_step_writes_sub bs st i w' hw' d hdw with h2 | h2 | h2
        · exact Or.inr (Or.inl h2)
        · exact Or.inl h2
        · exact Or.inr (Or.inr (by rw [h2]; exact List.mem_cons_self _ _))
      · exact Or.inr (Or.inr (List.mem_cons_of_mem i h1))

lemma ingest_laps_run_docs (bs : Nat) (items : List (Option Doc)) :
    ∀ w ∈ (ingest_laps_run bs items).writes, ∀ d ∈ w, some d ∈ items := by
  intro w hw d hd
  have h := laps_fold_docs bs items ⟨[], [], []⟩
  have hlaps : ∀ x ∈ (items.foldl (laps_step bs) ⟨[], [], []⟩).laps, some x ∈ items := by
    intro x hx
    rcases h.1 x hx with h1 | h1 | h1
    · simp at h1
    · obtain ⟨w', hw', _⟩ := h1
      simp at hw'
    · exact h1
  have hwrites : ∀ w' ∈ (items.foldl (laps_step bs) ⟨[], [], []⟩).writes,
      ∀ x ∈ w', some x ∈ items := by
    intro w' hw' x hx
    rcases h.2 w' hw' x hx with h1 | h1 | h1
    · simp at h1
    · obtain ⟨w'', hw'', _⟩ := h1
      simp at hw''
    · exact h1
  revert hw
  unfold ingest_laps_run
  set r := items.foldl (laps_step bs) ⟨[], [], []⟩ with hr
  by_cases he : r.laps.isEmpty
  · simp only [he, if_true]
    intro hw
    exact hwrites w hw d hd
  · have he' : r.laps.isEmpty = false := by simpa using he
    simp only [he', Bool.false_eq_true, if_false]
    intro hw
    rcases List.mem_append.mp hw with h1 | h1
    · rcases List.mem_append.mp h1 with h2 | h2
      · exact hwrites w h2 d hd
      · simp at h2
        rw [h2] at hd
        exact hlaps d hd
    · simp at h1
      rw [h1] at hd
      exact hlaps d hd

lemma positions_step_laps_sub (bs : Nat) (st : PositionsState) (item : Option Doc) :
    ∀ d ∈ (positions_step bs st item).positions, d ∈ st.positions ∨ item = some d := by
  cases item with
  | none =>
    intro d hd
    exact Or.inl hd
  | some x =>
    simp only [positions_step]
    split_ifs
    · intro d hd
      simp at hd
    · intro d hd
      rcases List.mem_append.mp hd with h | h
      · exact Or.inl h
      · simp at h
        exact Or.inr (by rw [h])

lemma positions_step_writes_sub (bs : Nat) (st : PositionsState) (item : Option Doc) :
    ∀ w ∈ (positions_step bs st item).writes, ∀ d ∈ w,
      (∃ w' ∈ st.writes, d ∈ w') ∨ d ∈ st.positions ∨ item = some d := by
  cases item with
  | none =>
    intro w hw d hd
    exact Or.inl ⟨w, hw, hd⟩
  | some x =>
    simp only [positions_step]
    split_ifs
    · intro w hw d hd
      rcases List.mem_append.mp hw with h | h
      · exact Or.inl ⟨w, h, hd⟩
      · simp at h
        rw [h] at hd
        rcases List.mem_append.mp hd with h' | h'
        · exact Or.inr (Or.inl h')
        · simp at h'
          exact Or.inr (Or.inr (by rw [h']))
    · intro w hw d hd
      exact Or.inl ⟨w, hw, hd⟩

lemma positions_fold_docs (bs : Nat) (items : List (Option Doc)) :
    ∀ st : PositionsState,
      (∀ d ∈ (items.foldl (positions_step bs) st).positions,
        d ∈ st.positions ∨ (∃ w ∈ st.writes, d ∈ w) ∨ some d ∈ items) ∧
      (∀ w ∈ (items.foldl (positions_step bs) st).writes, ∀ d ∈ w,
        d ∈ st.positions ∨ (∃ w' ∈ st.writes, d ∈ w') ∨ some d ∈ items) := by
  induction items with
  | nil =>
    intro st
    constructor
    · intro d hd
      exact Or.inl hd
    · intro w hw d hd
      exact Or.inr (Or.inl ⟨w, hw, hd⟩)
  | cons i rest ih =>
    intro st
    rw [List.foldl_cons]
    have h := ih (positions_step bs st i)
    constructor
    · intro d hd
      rcases h.1 d hd with h1 | h1 | h1
      · rcases positions_step_laps_sub bs st i d h1 with h2 | h2
        · exact Or.inl h2
        · exact Or.inr (Or.inr (by rw [h2]; exact List.mem_cons_self _ _))
      · obtain ⟨w, hw, hdw⟩ := h1
        rcases positions_step_writes_sub bs st i w hw d hdw with h2 | h2 | h2
        · exact Or.inr (Or.inl h2)
        · exact Or.inl h2
        · exact Or.inr (Or.inr (by rw [h2]; exact List.mem_cons_self _ _))
      · exact Or.inr (Or.inr (List.mem_cons_of_mem i h1))
    · intro w hw d hd
      rcases h.2 w hw d hd with h1 | h1 | h1
      · rcases positions_step_laps_sub bs st i d h1 with h2 | h2
        · exact Or.inl h2
        · exact Or.inr (Or.inr (by rw [h2]; exact List.mem_cons_self _ _))
      · obtain ⟨w', hw', hdw⟩ := h1
        rcases positions_step_writes_sub bs st i w' hw' d hdw with h2 | h2 | h2
        · exact Or.inr (Or.inl h2)
        · exact Or.inl h2
        · exact Or.inr (Or.inr (by rw [h2]; exact List.mem_cons_self _ _))
      · exact Or.inr (Or.inr (List.mem_cons_of_mem i h1))

lemma ingest_positions_run_docs (bs : Nat) (items : List (Option Doc)) :
    ∀ w ∈ (ingest_positions_run bs items).writes, ∀ d ∈ w, some d ∈ items := by
  intro w hw d hd
  have h := positions_fold_docs bs items ⟨[], []⟩
  have hbuf : ∀ x ∈ (items.foldl (positions_step bs) ⟨[], []⟩).positions, some x ∈ items := by
    intro x hx
    rcases h.1 x hx with h1 | h1 | h1
    · simp at h1
    · obtain ⟨w', hw', _⟩ := h1
      simp at hw'
    · exact h1
  have hwrites : ∀ w' ∈ (items.foldl (positions_step bs) ⟨[], []⟩).writes,
      ∀ x ∈ w', some x ∈ items := by
    intro w' hw' x hx
    rcases h.2 w' hw' x hx with h1 | h1 | h1
    · simp at h1
    · obtain ⟨w'', hw'', _⟩ := h1
      simp at hw''
    · exact h1
  revert hw
  unfold ingest_positions_run
  set r := items.foldl (positions_step bs) ⟨[], []⟩ with hr
  by_cases he : r.positions.isEmpty
  · simp only [he, if_true]
    intro hw
    exact hwrites w hw d hd
  · have he' : r.positions.isEmpty = false := by simpa using he
    simp only [he', Bool.false_eq_true, if_false]
    intro hw
    rcases List.mem_append.mp hw with h1 | h1
    · exact hwrites w h1 d hd
    · simp at h1
      rw [h1] at hd
      exact hbuf d hd

/-- Counterexample to C9: a fetched list consisting of one record that
fails validation.  The positions ingester reports 1 (the fetched total)
although 0 records passed validation; the failing record is excluded
from the written batches (no write happens at all). -/
theorem C9_counterexample_positions_count :
    ingest_positions_count [(none : Option Doc)] = 1 ∧
    (([(none : Option Doc)].filter (fun i => i.isSome)).length) = 0 ∧
    (ingest_positions_run BATCH_SIZE [(none : Option Doc)]).writes = [] := by
  refine ⟨rfl, rfl, ?_⟩
  decide

/-- C9 amended: records failing validation are excluded from every
written batch (every document written by the laps or positions loop
comes from a record that validated); the laps ingester's returned count
equals the number of fetched records that passed validation, but the
positions ingester returns the number of fetched records, counting
validation failures as ingested. -/
theorem C9_count_and_batch_exclusion :
    ∀ items : List (Option Doc),
      ingest_laps_count items = (items.filter (fun i => i.isSome)).length ∧
      ingest_positions_count items = items.length ∧
      (∀ w ∈ (ingest_laps_run BATCH_SIZE items).writes, ∀ d ∈ w, some d ∈ items) ∧
      (∀ w ∈ (ingest_positions_run BATCH_SIZE items).writes, ∀ d ∈ w, some d ∈ items) :=
  fun items =>
    ⟨rfl, rfl, ingest_laps_run_docs BATCH_SIZE items,
      ingest_positions_run_docs BATCH_SIZE items⟩

/-- Witness for C9's amended statement at a concrete two-record fetch
(one valid, one invalid): laps reports 1, positions reports 2, and every
document written by either loop comes from the valid record. -/
theorem C9_count_and_batch_exclusion_witness :
    ingest_laps_count [some ([("lap_number", .vInt 1)] : Doc), none] = 1 ∧
    ingest_positions_count [some ([("lap_number", .vInt 1)] : Doc), none] = 2 ∧
    (∀ w ∈ (ingest_laps_run BATCH_SIZE
        [some ([("lap_number", .vInt 1)] : Doc), none]).writes, ∀ d ∈ w,
      some d ∈ [some ([("lap_number", .vInt 1)] : Doc), none]) := by
  have h := C9_count_and_batch_exclusion [some ([("lap_number", .vInt 1)] : Doc), none]
  exact ⟨by rw [h.1]; rfl, by rw [h.2.1]; rfl, h.2.2.1⟩

/-- Counterexample to C7: the speed −1 (an integer) is matched by none
of the four range filters, so the four ranges do not cover the full
integer speed domain and a record with a negative speed would be fetched
by no range. -/
theorem C7_counterexample_negative_speed :
    speed_filters.map (fun f => f (-1)) = [false, false, false, false] := by decide

lemma speed_filters_at_most_one (s : Int) :
    speed_filters.countP (fun f => f s) ≤ 1 := by
  simp only [speed_filters, List.countP_cons, List.countP_nil, Bool.and_eq_true,
    decide_eq_true_eq]
  split_ifs <;> omega

lemma speed_filters_cover_nonneg (s : Int) (h : 0 ≤ s) :
    speed_filters.countP (fun f => f s) = 1 := by
  simp only [speed_filters, List.countP_cons, List.countP_nil, Bool.and_eq_true,
    decide_eq_true_eq]
  split_ifs <;> omega

lemma join_filter_cons_perm {α : Type} (ps : List (α → Bool)) (a : α) (R : List α)
    (h : ps.countP (fun p => p a) = 1) :
    ((ps.map (fun p => (a :: R).filter p)).flatten).Perm
      (a :: (ps.map (fun p => R.filter p)).flatten) := by
  induction ps with
  | nil => simp at h
  | cons p ps' ih =>
    rw [List.countP_cons] at h
    by_cases hpa : p a
    · have h0 : ps'.countP (fun q => q a) = 0 := by
        rw [if_pos hpa] at h
        exact Nat.add_right_cancel h
      have hmapeq : ps'.map (fun q => (a :: R).filter q) = ps'.map (fun q => R.filter q) := by
        apply List.map_congr_left
        intro q hq
        have hqa : q a = false := by
          have := List.countP_eq_zero.mp h0 q hq
          simpa using this
        rw [List.filter_cons]
        simp [hqa]
      have hfa : List.filter p (a :: R) = a :: List.filter p R := by
        rw [List.filter_cons]
        simp [hpa]
      simp only [List.map_cons, List.flatten_cons, hmapeq, hfa, List.cons_append]
      exact List.Perm.refl _
    · have h1 : ps'.countP (fun q => q a) = 1 := by
        rw [if_neg hpa] at h
        simpa using h
      have hfa : List.filter p (a :: R) = List.filter p R := by
        rw [List.filter_cons]
        simp [hpa]
      simp only [List.map_cons, List.flatten_cons, hfa]
      exact (List.Perm.append_left (R.filter p) (ih h1)).trans List.perm_middle

lemma join_filter_partition_perm {α : Type} (ps : List (α → Bool)) (R : List α)
    (h : ∀ a ∈ R, ps.countP (fun p => p a) = 1) :
    ((ps.map (fun p => R.filter p)).flatten).Perm R := by
  induction R with
  | nil =>
    rw [show ps.map (fun p => ([] : List α).filter p) = ps.map (fun _ => []) from by simp]
    rw [show ((ps.map (fun _ => ([] : List α))).flatten) = [] from by
      induction ps with
      | nil => rfl
      | cons _ _ ih => simp]
  | cons a R' ih =>
    have ha := h a (List.mem_cons_self a R')
    have h' : ∀ x ∈ R', ps.countP (fun p => p x) = 1 :=
      fun x hx => h x (List.mem_cons_of_mem _ hx)
    exact (join_filter_cons_perm ps a R' ha).trans ((ih h').cons a)

lemma foldl_add_map {α : Type} (g : α → Nat) (l : List α) :
    ∀ init : Nat, l.foldl (fun t x => t + g x) init = init + (l.map g).sum := by
  induction l with
  | nil => intro init; simp
  | cons x rest ih =>
    intro init
    rw [List.foldl_cons, ih]
    simp [Nat.add_assoc]

lemma countP_flatten_sum {α : Type} (p : α → Bool) (L : List (List α)) :
    L.flatten.countP p = (L.map (List.countP p)).sum := by
  induction L with
  | nil => rfl
  | cons l rest ih => simp [List.countP_append, ih]

lemma car_total_aux (fetchData : Nat → (Int → Bool) → List CarRec) :
    ∀ (drivers : List Nat) (init : Nat),
      drivers.foldl (fun total dn => speed_filters.foldl
        (fun t f => t + process_car_data_batch_count (fetchData dn f)) total) init
      = init + (drivers.map (fun dn => (speed_filters.map (fun f =>
          process_car_data_batch_count (fetchData dn f))).sum)).sum := by
  intro drivers
  induction drivers with
  | nil => intro init; simp
  | cons dn rest ih =>
    intro init
    rw [List.foldl_cons, foldl_add_map, ih]
    simp [Nat.add_assoc]

lemma speed_filters_record_count (R : List CarRec) (hR : ∀ r ∈ R, 0 ≤ r.speed) :
    ∀ a ∈ R, (speed_filters.map (fun f => (fun r : CarRec => f r.speed))).countP
      (fun p => p a) = 1 := by
  intro a ha
  rw [List.countP_map]
  exact speed_filters_cover_nonneg a.speed (hR a ha)

/-- C7 amended: the four speed-range filters are pairwise disjoint (no
integer speed matches two of them) and exactly cover the NON-NEGATIVE
integers (they miss negative speeds, see the counterexample); hence for
a per-driver result whose speeds are all non-negative, the four
range-filtered slices concatenate to a permutation of the full
per-driver result, and the fan-out total equals the sum over drivers of
each driver's full validated count. -/
theorem C7_speed_partition :
    (∀ s : Int, speed_filters.countP (fun f => f s) ≤ 1) ∧
    (∀ s : Int, 0 ≤ s → speed_filters.countP (fun f => f s) = 1) ∧
    (∀ R : List CarRec, (∀ r ∈ R, 0 ≤ r.speed) →
      ((speed_filters.map (fun f => R.filter (fun r => f r.speed))).flatten).Perm R) ∧
    (∀ (drivers : List Nat) (fullData : Nat → List CarRec),
      (∀ dn, ∀ r ∈ fullData dn, 0 ≤ r.speed) →
      ingest_car_data_by_drivers_total
          (fun dn f => (fullData dn).filter (fun r => f r.speed)) drivers
        = (drivers.map (fun dn => process_car_data_batch_count (fullData dn))).sum) := by
  have hperm : ∀ R : List CarRec, (∀ r ∈ R, 0 ≤ r.speed) →
      ((speed_filters.map (fun f => R.filter (fun r => f r.speed))).flatten).Perm R := by
    intro R hR
    have h := join_filter_partition_perm
      (speed_filters.map (fun f => (fun r : CarRec => f r.speed))) R
      (speed_filters_record_count R hR)
    rw [List.map_map] at h
    exact h
  refine ⟨speed_filters_at_most_one, speed_filters_cover_nonneg, hperm, ?_⟩
  intro drivers fullData hR
  have hc : ∀ l : List CarRec,
      process_car_data_batch_count l = l.countP (fun r => r.valid) := by
    intro l
    rw [process_car_data_batch_count, List.countP_eq_length_filter]
  have hdr : ∀ dn : Nat, (speed_filters.map (fun f =>
      process_car_data_batch_count ((fullData dn).filter (fun r => f r.speed)))).sum
      = process_car_data_batch_count (fullData dn) := by
    intro dn
    have hp := (hperm (fullData dn) (hR dn)).countP_eq (fun r => r.valid)
    rw [countP_flatten_sum, List.map_map] at hp
    calc (speed_filters.map (fun f =>
        process_car_data_batch_count ((fullData dn).filter (fun r => f r.speed)))).sum
        = (speed_filters.map (fun f =>
            ((fullData dn).filter (fun r => f r.speed)).countP (fun r => r.valid))).sum := by
          congr 1
          apply List.map_congr_left
          intro f _
          rw [hc]
      _ = (fullData dn).countP (fun r => r.valid) := hp
      _ = process_car_data_batch_count (fullData dn) := (hc _).symm
  unfold ingest_car_data_by_drivers_total
  rw [car_total_aux]
  rw [show drivers.map (fun dn => (speed_filters.map (fun f =>
      process_car_data_batch_count ((fullData dn).filter (fun r => f r.speed)))).sum)
      = drivers.map (fun dn => process_car_data_batch_count (fullData dn)) from
    List.map_congr_left (fun dn _ => hdr dn)]
  simp

/-- Witness for C7's amended statement: speed 7 lies in exactly one
range; a concrete three-record result (speeds 0, 150, 400) partitions
into a permutation of itself, and a one-driver fan-out totals the full
validated count 2. -/
theorem C7_speed_partition_witness :
    speed_filters.countP (fun f => f (7 : Int)) = 1 ∧
    ((speed_filters.map (fun f =>
        ([⟨0, true⟩, ⟨150, true⟩, ⟨400, false⟩] : List CarRec).filter
          (fun r => f r.speed))).flatten).Perm
      ([⟨0, true⟩, ⟨150, true⟩, ⟨400, false⟩] : List CarRec) ∧
    ingest_car_data_by_drivers_total
        (fun dn f => ((fun _ : Nat => ([⟨0, true⟩, ⟨150, true⟩, ⟨400, false⟩] : List CarRec)) dn).filter
          (fun r => f r.speed)) [44]
      = ([44].map (fun dn => process_car_data_batch_count
          ((fun _ : Nat => ([⟨0, true⟩, ⟨150, true⟩, ⟨400, false⟩] : List CarRec)) dn))).sum :=
  ⟨C7_speed_partition.2.1 7 (by decide),
   C7_speed_partition.2.2.1 _ (by decide),
   C7_speed_partition.2.2.2 [44] _ (fun _ => by decide)⟩
